import Mathlib

/-!
Verification of the mask-management and shader-dispatch pipeline of
`src/rendering/cubismrenderer_webgl.ts` (Live2D Cubism Web framework,
WebGL renderer).  The TypeScript source is shallowly embedded below:
JavaScript `number` arithmetic is modelled over `ℚ`, `Int32Array`
entries over `ℤ`, and the stateful manager objects by explicit state
passing.  Definitions keep the source names where Lean allows it.
-/

namespace CubismWebGL

/-- Embedding of `csmRect` (type/csmrectf.ts): an axis-aligned rectangle
with origin `(x, y)` and extent `(width, height)`. -/
structure csmRect where
  x : ℚ
  y : ℚ
  width : ℚ
  height : ℚ
deriving DecidableEq, Repr

/-- Modelled from the spec: `csmRect.expand` (type/csmrectf.ts is not under
`src/`).  The spec states the bounds rectangle is "expanded by a fixed 5%
margin on each axis": the origin moves by the margin towards negative and the
extent grows by twice the margin, enlarging the rectangle on every side. -/
def csmRect.expand (r : csmRect) (dw dh : ℚ) : csmRect :=
  ⟨r.x - dw, r.y - dh, r.width + 2 * dw, r.height + 2 * dh⟩

/-- `csmRect.getRight`: right edge of the rectangle. -/
def csmRect.getRight (r : csmRect) : ℚ := r.x + r.width

/-- `csmRect.getBottom`: bottom edge of the rectangle. -/
def csmRect.getBottom (r : csmRect) : ℚ := r.y + r.height

/-- Embedding of `CubismClippingContext` restricted to the fields the
claims are about: `_clippingIdList` (the clip-ID list stored at
construction; its used length is `_clippingIdCount`, here the list
length) and `_clippedDrawableIndexList` (the drawables clipped by this
context, filled by `addClippedDrawable`). -/
structure ClippingContext where
  clippingIdList : List ℤ
  clippedDrawableIndexList : List ℕ
deriving DecidableEq, Repr

/-- `CubismClippingContext.addClippedDrawable`: push a drawable index
onto `_clippedDrawableIndexList`. -/
def ClippingContext.addClippedDrawable (cc : ClippingContext) (i : ℕ) :
    ClippingContext :=
  { cc with clippedDrawableIndexList := cc.clippedDrawableIndexList ++ [i] }

/-- The matching test of `CubismClippingManager_WebGL.findSameClip` for a
single registered context: the counts must coincide
(`count != drawableMaskCounts` ⟹ skip) and `sameCount` — the number of
entries `clipId` of `_clippingIdList` for which the inner `k`-loop finds
`drawableMasks[k] == clipId` (the `break` makes each `j` contribute at most
once, so `sameCount` is the number of entries of the stored list that occur
in the queried list) — must equal `count`. -/
def sameClipMatch (cc : ClippingContext) (drawableMasks : List ℤ) : Bool :=
  cc.clippingIdList.length == drawableMasks.length &&
    (cc.clippingIdList.filter (fun clipId => drawableMasks.contains clipId)).length
      == cc.clippingIdList.length

/-- Embedding of `CubismClippingManager_WebGL.findSameClip`: scan
`_clippingContextListForMask` in order and return the first context whose
clip-ID list matches the queried list under `sameClipMatch`. -/
def findSameClip (listForMask : List ClippingContext)
    (drawableMasks : List ℤ) : Option ClippingContext :=
  listForMask.find? (fun cc => sameClipMatch cc drawableMasks)

/-- A context freshly registered from a clip-ID list (as built by
`initialize` when no existing context matches). -/
def mkClippingContext (drawableMasks : List ℤ) : ClippingContext :=
  ⟨drawableMasks, []⟩

/-- Embedding of the index-ordering pass of
`CubismRenderer_WebGL.doDrawModel`: `_sortedDrawableIndexList` is resized
to `drawableCount` entries initialised to `0`, then for every drawable
`i` the code executes `_sortedDrawableIndexList.set(renderOrder[i], i)`
— the render order is used as a slot index, not as a sort key. -/
def sortedDrawableIndexList (renderOrder : List ℕ) (drawableCount : ℕ) :
    List ℕ :=
  (List.range drawableCount).foldl
    (fun acc i => acc.set (renderOrder.getD i 0) i)
    (List.replicate drawableCount 0)

/-- The screen pass of `doDrawModel` walks `_sortedDrawableIndexList` in
order and skips drawables whose `IsVisible` dynamic flag is unset; the
remaining indices are drawn in this order. -/
def screenPassSequence (visible : ℕ → Bool) (renderOrder : List ℕ)
    (drawableCount : ℕ) : List ℕ :=
  (sortedDrawableIndexList renderOrder drawableCount).filter visible

/-- Proof scaffold for `sortedDrawableIndexList`: the state of
`_sortedDrawableIndexList` after the first `k` iterations of the
index-placement loop. -/
def sortedAux (renderOrder : List ℕ) (n k : ℕ) : List ℕ :=
  (List.range k).foldl
    (fun acc i => acc.set (renderOrder.getD i 0) i)
    (List.replicate n 0)

/-- Per-drawable bounding box inside
`CubismClippingManager_WebGL.calcClippedDrawTotalBounds`: min/max over the
drawable's vertex positions.  The source initialises the running bounds to
`±Number.MAX_VALUE` and detects "no vertex seen" by
`minX === Number.MAX_VALUE`; the sentinel is modelled by `Option`
(`none` = no vertex). -/
def drawableBounds : List (ℚ × ℚ) → Option (ℚ × ℚ × ℚ × ℚ)
  | [] => none
  | (x, y) :: rest =>
    match drawableBounds rest with
    | none => some (x, y, x, y)
    | some (mnX, mnY, mxX, mxY) =>
      some (min x mnX, min y mnY, max x mxX, max y mxY)

/-- The fields of a `CubismClippingContext` written by
`calcClippedDrawTotalBounds`: `_allClippedDrawRect` and `_isUsing`. -/
structure ClippingContextBounds where
  allClippedDrawRect : csmRect
  isUsing : Bool
deriving DecidableEq, Repr

/-- One iteration of the drawable loop of `calcClippedDrawTotalBounds`.
State: the running total bounds (`none` encodes the `MAX_VALUE`
sentinels) together with the context fields.  A drawable with no valid
vertex hits `continue` before anything is written.  Faithful to the
source, the `if (clippedDrawTotalMinX === Number.MAX_VALUE)` zeroing
branch sits INSIDE the loop, after the totals were just updated — so it
can never fire, and the else branch rewrites the rect and `_isUsing`
on every contributing iteration. -/
def calcClippedDrawTotalBoundsStep
    (vertices : ℕ → List (ℚ × ℚ))
    (acc : Option (ℚ × ℚ × ℚ × ℚ) × ClippingContextBounds)
    (drawableIndex : ℕ) :
    Option (ℚ × ℚ × ℚ × ℚ) × ClippingContextBounds :=
  match drawableBounds (vertices drawableIndex) with
  | none => acc
  | some (mnX, mnY, mxX, mxY) =>
    let totals :=
      match acc.1 with
      | none => (mnX, mnY, mxX, mxY)
      | some (tmnX, tmnY, tmxX, tmxY) =>
        (min mnX tmnX, min mnY tmnY, max mxX tmxX, max mxY tmxY)
    (some totals,
      { allClippedDrawRect :=
          ⟨totals.1, totals.2.1, totals.2.2.1 - totals.1,
            totals.2.2.2 - totals.2.1⟩
        isUsing := true })

/-- Embedding of `CubismClippingManager_WebGL.calcClippedDrawTotalBounds`:
fold the drawable loop over `_clippedDrawableIndexList`, starting from the
context's current field values, and return the final field values. -/
def calcClippedDrawTotalBounds (vertices : ℕ → List (ℚ × ℚ))
    (clippedDrawableIndexList : List ℕ) (st : ClippingContextBounds) :
    ClippingContextBounds :=
  (clippedDrawableIndexList.foldl
    (calcClippedDrawTotalBoundsStep vertices) (none, st)).2

/-- `ColorChannelCount` (cubismrenderer_webgl.ts line 21). -/
def ColorChannelCount : ℕ := 4

/-- The number of masks laid out on channel `channelNo` by
`setupLayoutBounds`: `div + (channelNo < mod ? 1 : 0)` with
`div = ⌊usingClipCount / 4⌋` and `mod = usingClipCount % 4`. -/
def layoutCountForChannel (usingClipCount channelNo : ℕ) : ℕ :=
  usingClipCount / ColorChannelCount +
    (if channelNo < usingClipCount % ColorChannelCount then 1 else 0)

/-- The sub-rectangles handed out within one channel by
`setupLayoutBounds`, in assignment order, following the source's branch
on `layoutCount`: 0 → nothing; 1 → the whole `[0,1]²` square; 2 →
horizontal halves (`xpos * 0.5`); ≤ 4 → `2×2` quarter tiles; ≤ 9 →
`3×3` tiles; > 9 → `CubismLogError('not supported mask count : {0}')`
and nothing is assigned on this channel. -/
def channelLayoutRects (layoutCount : ℕ) : List csmRect :=
  if layoutCount = 0 then []
  else if layoutCount = 1 then [⟨0, 0, 1, 1⟩]
  else if layoutCount = 2 then
    (List.range layoutCount).map (fun i =>
      ⟨((i % 2 : ℕ) : ℚ) * (1 / 2), 0, 1 / 2, 1⟩)
  else if layoutCount ≤ 4 then
    (List.range layoutCount).map (fun i =>
      ⟨((i % 2 : ℕ) : ℚ) * (1 / 2), ((i / 2 : ℕ) : ℚ) * (1 / 2), 1 / 2, 1 / 2⟩)
  else if layoutCount ≤ 9 then
    (List.range layoutCount).map (fun i =>
      ⟨((i % 3 : ℕ) : ℚ) / 3, ((i / 3 : ℕ) : ℚ) / 3, 1 / 3, 1 / 3⟩)
  else []

/-- Embedding of `CubismClippingManager_WebGL.setupLayoutBounds`: the
slot assignments `(_layoutChannelNo, _layoutBounds)` produced for
`usingClipCount` clips, in `curClipIndex` order — i.e. entry `j` of the
result is written into context `j` of `_clippingContextListForMask`
(regardless of that context's `_isUsing` flag). -/
def setupLayoutBounds (usingClipCount : ℕ) : List (ℕ × csmRect) :=
  (channelLayoutRects (layoutCountForChannel usingClipCount 0)).map (Prod.mk 0) ++
  (channelLayoutRects (layoutCountForChannel usingClipCount 1)).map (Prod.mk 1) ++
  (channelLayoutRects (layoutCountForChannel usingClipCount 2)).map (Prod.mk 2) ++
  (channelLayoutRects (layoutCountForChannel usingClipCount 3)).map (Prod.mk 3)

/-- The in-use counting loop of
`CubismClippingManager_WebGL.setupClippingContext`: `usingClipCount` is
the number of contexts whose `_isUsing` flag is set after
`calcClippedDrawTotalBounds` ran on them. -/
def usingClipCountOf (isUsingFlags : List Bool) : ℕ :=
  (isUsingFlags.filter id).length

/-- The layout slot each context of `_clippingContextListForMask`
receives in `setupClippingContext` for a frame in which the contexts'
`_isUsing` flags are `isUsingFlags`: `setupLayoutBounds` is called with
the in-use count and hands its slots to the contexts in plain list
order; `none` means the context's `_layoutChannelNo`/`_layoutBounds`
are left unwritten this frame. -/
def assignedLayoutSlots (isUsingFlags : List Bool) :
    List (Option (ℕ × csmRect)) :=
  (List.range isUsingFlags.length).map
    (fun i => (setupLayoutBounds (usingClipCountOf isUsingFlags))[i]?)

/-- C4's claim as a predicate: every assigned layout slot goes to an
in-use group. -/
def slotsOnlyToInUse (isUsingFlags : List Bool) : Prop :=
  ∀ i, ((assignedLayoutSlots isUsingFlags).getD i none).isSome = true →
    isUsingFlags.getD i false = true

/-- Modelled from the spec: `CubismMatrix44` (math/cubismmatrix44.ts is not
under `src/`; the spec treats it as "an opaque linear-algebra library with
standard `translate`, `scale`, `multiply`, `toArray` operations").  The
renderer only ever composes axis-aligned scalings and translations, so the
matrices reachable here are the diagonal-affine maps
`(x, y) ↦ (sx·x + tx, sy·y + ty)`; a `…Relative` call appends a transform
that is applied to the point FIRST (before everything composed so far),
matching the source's comment `new = [translate][scale][translate]` with
column vectors multiplied on the right. -/
structure Affine2 where
  sx : ℚ
  sy : ℚ
  tx : ℚ
  ty : ℚ
deriving DecidableEq, Repr

/-- The identity matrix (`new CubismMatrix44()`). -/
def Affine2.ident : Affine2 := ⟨1, 1, 0, 0⟩

/-- `CubismMatrix44.translateRelative(a, b)` (modelled from the spec):
post-compose with a translation applied first to the point. -/
def Affine2.translateRelative (m : Affine2) (a b : ℚ) : Affine2 :=
  ⟨m.sx, m.sy, m.tx + m.sx * a, m.ty + m.sy * b⟩

/-- `CubismMatrix44.scaleRelative(a, b)` (modelled from the spec):
post-compose with an axis-aligned scaling applied first to the point. -/
def Affine2.scaleRelative (m : Affine2) (a b : ℚ) : Affine2 :=
  ⟨m.sx * a, m.sy * b, m.tx, m.ty⟩

/-- Apply the transform to a point (`u_clipMatrix * a_position`). -/
def Affine2.apply (m : Affine2) (p : ℚ × ℚ) : ℚ × ℚ :=
  (m.sx * p.1 + m.tx, m.sy * p.2 + m.ty)

/-- `MARGIN` (setupClippingContext): the bounding rectangle is used with a
5% margin. -/
def MARGIN : ℚ := 1 / 20

/-- `boundsOnModel` of `setupClippingContext`: `_allClippedDrawRect`
expanded by `width * MARGIN` and `height * MARGIN`. -/
def boundsOnModel (allClippedDrawRect : csmRect) : csmRect :=
  allClippedDrawRect.expand (allClippedDrawRect.width * MARGIN)
    (allClippedDrawRect.height * MARGIN)

/-- The `calcMatrix` closure of `setupClippingContext`: optionally the
`[0,1] → [-1,1]` remap (`translateRelative(-1,-1)` then
`scaleRelative(2,2)`), then translate into the layout rectangle, scale by
`layoutBounds.width / boundsOnModel.width` (resp. height), then translate
by the negated bounds origin. -/
def calcMatrix (allClippedDrawRect layoutBoundsOnTex01 : csmRect)
    (remap : Bool) : Affine2 :=
  let bounds := boundsOnModel allClippedDrawRect
  let scaleX := layoutBoundsOnTex01.width / bounds.width
  let scaleY := layoutBoundsOnTex01.height / bounds.height
  let m0 := Affine2.ident
  let m1 := if remap then (m0.translateRelative (-1) (-1)).scaleRelative 2 2
    else m0
  let m2 := m1.translateRelative layoutBoundsOnTex01.x layoutBoundsOnTex01.y
  let m3 := m2.scaleRelative scaleX scaleY
  m3.translateRelative (-bounds.x) (-bounds.y)

/-- `_matrixForMask` as computed in `setupClippingContext`: `calcMatrix`
with the final `[0,1] → [-1,1]` remap. -/
def matrixForMask (allClippedDrawRect layoutBoundsOnTex01 : csmRect) :
    Affine2 :=
  calcMatrix allClippedDrawRect layoutBoundsOnTex01 true

/-- `_matrixForDraw` as computed in `setupClippingContext`: `calcMatrix`
without the remap (stays in `[0,1]²` texture space). -/
def matrixForDraw (allClippedDrawRect layoutBoundsOnTex01 : csmRect) :
    Affine2 :=
  calcMatrix allClippedDrawRect layoutBoundsOnTex01 false

/-- C6's corner condition: `matrixForMask` sends the four corners of the
margin-expanded model-space rectangle onto the corresponding corners of
the layout sub-rectangle after the `[0,1] → [-1,1]` remap. -/
def maskMapsCorners (allClippedDrawRect layout : csmRect) : Prop :=
  let b := boundsOnModel allClippedDrawRect
  let m := matrixForMask allClippedDrawRect layout
  m.apply (b.x, b.y) = (2 * layout.x - 1, 2 * layout.y - 1) ∧
  m.apply (b.x + b.width, b.y) =
    (2 * (layout.x + layout.width) - 1, 2 * layout.y - 1) ∧
  m.apply (b.x, b.y + b.height) =
    (2 * layout.x - 1, 2 * (layout.y + layout.height) - 1) ∧
  m.apply (b.x + b.width, b.y + b.height) =
    (2 * (layout.x + layout.width) - 1, 2 * (layout.y + layout.height) - 1)

/-- `CubismBlendMode` (rendering/cubismrenderer.ts, not under `src/`;
modelled from the spec's blend-mode enum {Normal, Additive,
Multiplicative}). -/
inductive CubismBlendMode where
  | normal
  | additive
  | multiplicative
deriving DecidableEq, Repr

/-- The WebGL blend factors used by `setupShaderProgram`
(`gl.ZERO`, `gl.ONE`, `gl.ONE_MINUS_SRC_COLOR`, `gl.ONE_MINUS_SRC_ALPHA`,
`gl.DST_COLOR`). -/
inductive GLBlendFactor where
  | zero
  | one
  | oneMinusSrcColor
  | oneMinusSrcAlpha
  | dstColor
deriving DecidableEq, Repr

/-- The blend tuple handed to `gl.blendFuncSeparate(SRC_COLOR, DST_COLOR,
SRC_ALPHA, DST_ALPHA)`. -/
structure BlendTuple where
  srcColor : GLBlendFactor
  dstColor : GLBlendFactor
  srcAlpha : GLBlendFactor
  dstAlpha : GLBlendFactor
deriving DecidableEq, Repr

/-- The `ShaderNames` enum values (cubismrenderer_webgl.ts lines
1234-1252), including the source's `Nomral…` typo. -/
def ShaderNames.SetupMask : ℕ := 0

def ShaderNames.NormalPremultipliedAlpha : ℕ := 1

def ShaderNames.NormalMaskedPremultipliedAlpha : ℕ := 2

def ShaderNames.NomralMaskedInvertedPremultipliedAlpha : ℕ := 3

def ShaderNames.AddPremultipliedAlpha : ℕ := 4

def ShaderNames.AddMaskedPremultipliedAlpha : ℕ := 5

def ShaderNames.AddMaskedPremultipliedAlphaInverted : ℕ := 6

def ShaderNames.MultPremultipliedAlpha : ℕ := 7

def ShaderNames.MultMaskedPremultipliedAlpha : ℕ := 8

def ShaderNames.MultMaskedPremultipliedAlphaInverted : ℕ := 9

/-- Embedding of the `shaderContent` closure of
`CubismShader_WebGL.setupShaderProgram`: from the mask-generation flag
(`getClippingContextBufferForMask() != null`), the consumer flag
(`getClippingContextBufferForDraw() != null`), the inversion flag and the
blend mode, select the `_shaderSets` index and the blend tuple.  The
masked variants are reached by the offset
`forMasked ? (invertedMask ? 2 : 1) : 0` added to the unmasked variant's
enum value. -/
def shaderContent (setupMask forMasked invertedMask : Bool)
    (colorBlendMode : CubismBlendMode) : ℕ × BlendTuple :=
  if setupMask then
    (ShaderNames.SetupMask,
      ⟨.zero, .oneMinusSrcColor, .zero, .oneMinusSrcAlpha⟩)
  else
    let shaderNameOffset : ℕ :=
      if forMasked then (if invertedMask then 2 else 1) else 0
    match colorBlendMode with
    | .normal =>
      (ShaderNames.NormalPremultipliedAlpha + shaderNameOffset,
        ⟨.one, .oneMinusSrcAlpha, .one, .oneMinusSrcAlpha⟩)
    | .additive =>
      (ShaderNames.AddPremultipliedAlpha + shaderNameOffset,
        ⟨.one, .one, .zero, .one⟩)
    | .multiplicative =>
      (ShaderNames.MultPremultipliedAlpha + shaderNameOffset,
        ⟨.dstColor, .oneMinusSrcAlpha, .zero, .one⟩)

/-- The claim's mask states: unmasked, masked, masked-inverted. -/
inductive MaskState where
  | unmasked
  | masked
  | maskedInverted
deriving DecidableEq, Repr

/-- The claim's reading of the flags: a draw with an attached
draw-clipping context is masked, and masked-inverted when the inversion
flag is set. -/
def maskStateOf (forMasked invertedMask : Bool) : MaskState :=
  if forMasked then (if invertedMask then .maskedInverted else .masked)
  else .unmasked

/-- Written from C7's words: the shader variant for each blend mode and
mask state, as an explicit table. -/
def specVariantIndex : CubismBlendMode → MaskState → ℕ
  | .normal, .unmasked => ShaderNames.NormalPremultipliedAlpha
  | .normal, .masked => ShaderNames.NormalMaskedPremultipliedAlpha
  | .normal, .maskedInverted =>
    ShaderNames.NomralMaskedInvertedPremultipliedAlpha
  | .additive, .unmasked => ShaderNames.AddPremultipliedAlpha
  | .additive, .masked => ShaderNames.AddMaskedPremultipliedAlpha
  | .additive, .maskedInverted =>
    ShaderNames.AddMaskedPremultipliedAlphaInverted
  | .multiplicative, .unmasked => ShaderNames.MultPremultipliedAlpha
  | .multiplicative, .masked => ShaderNames.MultMaskedPremultipliedAlpha
  | .multiplicative, .maskedInverted =>
    ShaderNames.MultMaskedPremultipliedAlphaInverted

/-- Written from C7's words: the blend tuple for each blend mode. -/
def specBlend : CubismBlendMode → BlendTuple
  | .normal => ⟨.one, .oneMinusSrcAlpha, .one, .oneMinusSrcAlpha⟩
  | .additive => ⟨.one, .one, .zero, .one⟩
  | .multiplicative => ⟨.dstColor, .oneMinusSrcAlpha, .zero, .one⟩

/-- Written from C7's words: mask-generation pass → setup-mask shader with
its fixed blend; otherwise the blend mode's tuple and the (possibly
masked / masked-inverted) variant of the blend mode's shader. -/
def specShaderContent (setupMask forMasked invertedMask : Bool)
    (colorBlendMode : CubismBlendMode) : ℕ × BlendTuple :=
  if setupMask then
    (ShaderNames.SetupMask,
      ⟨.zero, .oneMinusSrcColor, .zero, .oneMinusSrcAlpha⟩)
  else
    (specVariantIndex colorBlendMode (maskStateOf forMasked invertedMask),
      specBlend colorBlendMode)

/-- An RGBA colour value (`CubismTextureColor`). -/
structure Color4 where
  R : ℚ
  G : ℚ
  B : ℚ
  A : ℚ
deriving DecidableEq, Repr

/-- `CubismClippingManager_WebGL.getChannelFlagAsColor`: the constructor
pushes the four channel colours in order R, G, B, A; `_layoutChannelNo`
is always 0–3, so the out-of-range branch is never exercised. -/
def getChannelFlagAsColor : ℕ → Color4
  | 0 => ⟨1, 0, 0, 0⟩
  | 1 => ⟨0, 1, 0, 0⟩
  | 2 => ⟨0, 0, 1, 0⟩
  | 3 => ⟨0, 0, 0, 1⟩
  | _ + 4 => ⟨0, 0, 0, 0⟩

/-- The per-context data `setupShaderProgram` reads from a
`CubismClippingContext`: `_layoutChannelNo`, the two matrices and
`_layoutBounds`. -/
structure ClipCtxGPU where
  layoutChannelNo : ℕ
  matForMask : Affine2
  matForDraw : Affine2
  layoutBounds : csmRect
deriving DecidableEq, Repr

/-- The observable effects of one `setupShaderProgram` call: the logged
policy violation, the selected shader variant and blend tuple, the data
uploaded into the (lazily created, then reused) vertex/UV/index buffers,
the texture bound to unit 0, and the uniform values written.  `none` in a
uniform field means that uniform is not written on this call. -/
structure SetupEffects where
  loggedNoPMA : Bool
  shaderIndex : ℕ
  blend : BlendTuple
  vertexData : List ℚ
  uvData : List ℚ
  indexData : List ℕ
  texture0 : Option ℕ
  channelFlag : Option Color4
  clipMatrix : Option Affine2
  matrix : Option Affine2
  baseColor : Option Color4
deriving DecidableEq, Repr

/-- Embedding of `CubismShader_WebGL.setupShaderProgram`.  The
non-premultiplied-alpha check only logs
(`CubismLogError('NoPremultipliedAlpha is not allowed')`) and execution
continues; the function is total — no exception path exists.  Shader and
blend selection follow `shaderContent`; the buffers are uploaded and the
uniforms written exactly as in the source's `setupMask` / `forMasked`
branches. -/
def setupShaderProgram (maskCtx drawCtx : Option ClipCtxGPU)
    (invertedMask : Bool) (colorBlendMode : CubismBlendMode)
    (textureId : Option ℕ) (vertexArray uvArray : List ℚ)
    (indexArray : List ℕ) (baseColor : Color4) (matrix4x4 : Affine2)
    (isPremultipliedAlpha : Bool) : SetupEffects :=
  let setupMask := maskCtx.isSome
  let forMasked := drawCtx.isSome
  let content := shaderContent setupMask forMasked invertedMask colorBlendMode
  { loggedNoPMA := !isPremultipliedAlpha
    shaderIndex := content.1
    blend := content.2
    vertexData := vertexArray
    uvData := uvArray
    indexData := indexArray
    texture0 := textureId
    channelFlag :=
      match maskCtx with
      | some mc => some (getChannelFlagAsColor mc.layoutChannelNo)
      | none =>
        match drawCtx with
        | some dc => some (getChannelFlagAsColor dc.layoutChannelNo)
        | none => none
    clipMatrix :=
      match maskCtx with
      | some mc => some mc.matForMask
      | none =>
        match drawCtx with
        | some dc => some dc.matForDraw
        | none => none
    matrix :=
      match maskCtx with
      | some _ => none
      | none => some matrix4x4
    baseColor :=
      match maskCtx with
      | some mc =>
        some ⟨mc.layoutBounds.x * 2 - 1, mc.layoutBounds.y * 2 - 1,
          mc.layoutBounds.getRight * 2 - 1, mc.layoutBounds.getBottom * 2 - 1⟩
      | none => some baseColor }

/-- Embedding of `CubismShader_WebGL.loadShaderProgram` as a function of
which GL stages succeed: a vertex or fragment compile failure logs
`'Vertex shader compile error!'` (the source logs the same message for
both stages) and returns the null program handle `0`; a link failure logs
`'Failed to link program: {0}'`, deletes the shaders and program, and
returns `0`; on success the created program handle is returned. -/
def loadShaderProgram (vertOk fragOk linkOk : Bool)
    (createdHandle : ℕ) : List String × ℕ :=
  if !vertOk then (["Vertex shader compile error!"], 0)
  else if !fragOk then (["Vertex shader compile error!"], 0)
  else if !linkOk then (["Failed to link program: {0}"], 0)
  else ([], createdHandle)

/-- The GL commands issued on the draw path,
`drawMesh` → `setupShaderProgram` → `drawElements`. -/
inductive GLCmd where
  | useProgram (handle : ℕ)
  | bindArrayBuffer
  | bindElementBuffer
  | blendFuncSeparate (blend : BlendTuple)
  | drawElements (indexCount : ℕ)
  | useProgramNull
deriving DecidableEq, Repr

/-- The GL command sequence of one
`CubismRenderer_WebGL.drawMesh` call (abridged to the calls relevant to
C9): `setupShaderProgram` calls `gl.useProgram(shaderSet.shaderProgram)`
with whatever handle `loadShaderProgram` produced — there is no null/zero
check anywhere on this path — then binds and uploads the buffers, sets
the blend function, and `drawMesh` unconditionally issues
`gl.drawElements` and finally `gl.useProgram(null)`. -/
def drawMeshCommands (programHandle : ℕ) (blend : BlendTuple)
    (indexCount : ℕ) : List GLCmd :=
  [GLCmd.useProgram programHandle, GLCmd.bindArrayBuffer,
    GLCmd.bindElementBuffer, GLCmd.blendFuncSeparate blend,
    GLCmd.drawElements indexCount, GLCmd.useProgramNull]

/-- C9's claim as a predicate: a draw through a failed (null-handle)
shader variant is skipped — no `drawElements` is issued. -/
def failedVariantDrawSkipped : Prop :=
  ∀ (blend : BlendTuple) (indexCount : ℕ),
    GLCmd.drawElements indexCount ∉ drawMeshCommands 0 blend indexCount

/-- The scan of `findSameClip` returning the position of the first
matching context in `_clippingContextListForMask` (used by `initialize`,
where the matched context is then mutated in place). -/
def findSameClipIdx (drawableMasks : List ℤ) :
    List ClippingContext → Option ℕ
  | [] => none
  | cc :: rest =>
    if sameClipMatch cc drawableMasks then some 0
    else (findSameClipIdx drawableMasks rest).map (· + 1)

/-- One iteration of the registration loop of
`CubismClippingManager_WebGL.initialize` for drawable `i`.  State:
(`_clippingContextListForMask`, `_clippingContextListForDraw`), the draw
list holding positions into the mask list (`none` = the source's `null`
entry).  `drawableMaskCounts[i] <= 0` pushes `null`; otherwise the
matching context (found, or freshly created and pushed) gets
`addClippedDrawable(i)` and its position is pushed onto the draw list.
The clip-ID list of a new context is the first `drawableMaskCounts[i]`
entries of `drawableMasks[i]`, the prefix the source's loops read. -/
def initializeStep (drawableMasks : ℕ → List ℤ) (drawableMaskCounts : ℕ → ℤ)
    (state : List ClippingContext × List (Option ℕ)) (i : ℕ) :
    List ClippingContext × List (Option ℕ) :=
  if drawableMaskCounts i ≤ 0 then
    (state.1, state.2 ++ [none])
  else
    let masks := (drawableMasks i).take (drawableMaskCounts i).toNat
    match findSameClipIdx masks state.1 with
    | some j =>
      (state.1.set j ((state.1.getD j (mkClippingContext masks)).addClippedDrawable i),
        state.2 ++ [some j])
    | none =>
      (state.1 ++ [(mkClippingContext masks).addClippedDrawable i],
        state.2 ++ [some state.1.length])

/-- Embedding of `CubismClippingManager_WebGL.initialize` on a freshly
constructed manager: fold the registration loop over the
`drawableCount` drawables, starting from empty mask and draw lists.
Returns (`_clippingContextListForMask`, `_clippingContextListForDraw`). -/
def initClippingManager (drawableMasks : ℕ → List ℤ)
    (drawableMaskCounts : ℕ → ℤ) (drawableCount : ℕ) :
    List ClippingContext × List (Option ℕ) :=
  (List.range drawableCount).foldl
    (initializeStep drawableMasks drawableMaskCounts) ([], [])

end CubismWebGL

namespace CubismWebGL

/-- `sameClipMatch` holds iff the two lists have equal length and every
stored clip-ID occurs in the queried list. -/
theorem sameClipMatch_iff (a b : List ℤ) :
    sameClipMatch (mkClippingContext a) b = true ↔
      (a.length = b.length ∧ ∀ x ∈ a, x ∈ b) := by
  unfold sameClipMatch mkClippingContext
  simp only [Bool.and_eq_true, beq_iff_eq]
  constructor
  · rintro ⟨hlen, hfilt⟩
    refine ⟨hlen, ?_⟩
    have hsub : a.filter (fun clipId => b.contains clipId) = a :=
      (List.filter_sublist a).eq_of_length hfilt
    intro x hx
    have := List.filter_eq_self.mp hsub x hx
    simpa using this
  · rintro ⟨hlen, hmem⟩
    refine ⟨hlen, ?_⟩
    have : a.filter (fun clipId => b.contains clipId) = a :=
      List.filter_eq_self.mpr (fun x hx => by simpa using hmem x hx)
    rw [this]

/-- C1, amended.  After registering the clip-ID list `a`, `findSameClip`
applied to the queried list `b` returns the registered context iff the two
lists have equal length and every ID of the registered list occurs in the
queried one; under that test, order is irrelevant.  When both lists are
duplicate-free this is exactly set equality of the two lists. -/
theorem findSameClip_characterization (a b : List ℤ) :
    ((findSameClip [mkClippingContext a] b).isSome = true ↔
      (a.length = b.length ∧ ∀ x ∈ a, x ∈ b)) ∧
    (a.Nodup → b.Nodup →
      ((findSameClip [mkClippingContext a] b).isSome = true ↔
        a.toFinset = b.toFinset)) := by
  have hsingle : (findSameClip [mkClippingContext a] b).isSome = true ↔
      sameClipMatch (mkClippingContext a) b = true := by
    unfold findSameClip
    cases h : sameClipMatch (mkClippingContext a) b <;>
      simp [List.find?, h]
  constructor
  · rw [hsingle]; exact sameClipMatch_iff a b
  · intro ha hb
    rw [hsingle, sameClipMatch_iff a b]
    constructor
    · rintro ⟨hlen, hmem⟩
      have hsub : a.toFinset ⊆ b.toFinset := by
        intro x hx
        rw [List.mem_toFinset] at hx ⊢
        exact hmem x hx
      have hcard : b.toFinset.card ≤ a.toFinset.card := by
        rw [List.toFinset_card_of_nodup ha, List.toFinset_card_of_nodup hb]
        omega
      exact Finset.eq_of_subset_of_card_le hsub hcard
    · intro heq
      constructor
      · have := congrArg Finset.card heq
        rwa [List.toFinset_card_of_nodup ha, List.toFinset_card_of_nodup hb]
          at this
      · intro x hx
        have : x ∈ a.toFinset := List.mem_toFinset.mpr hx
        rw [heq, List.mem_toFinset] at this
        exact this

/-- Witness for `findSameClip_characterization`: the spec's own example —
registered `[1,2,3]`, queried `[3,2,1]` — falls under the duplicate-free
case and matches. -/
theorem findSameClip_characterization_witness :
    (findSameClip [mkClippingContext [1, 2, 3]] [3, 2, 1]).isSome = true ↔
      ([1, 2, 3] : List ℤ).toFinset = ([3, 2, 1] : List ℤ).toFinset :=
  (findSameClip_characterization [1, 2, 3] [3, 2, 1]).2 (by decide) (by decide)

/-- A duplicate-free list of `n` naturals below `n` contains every
natural below `n`. -/
theorem mem_of_nodup_bounded {l : List ℕ} {n : ℕ} (hnd : l.Nodup)
    (hb : ∀ x ∈ l, x < n) (hl : l.length = n) : ∀ p < n, p ∈ l := by
  intro p hp
  have hsub : l.toFinset ⊆ Finset.range n := by
    intro x hx
    rw [List.mem_toFinset] at hx
    exact Finset.mem_range.mpr (hb x hx)
  have hcard : (Finset.range n).card ≤ l.toFinset.card := by
    rw [List.toFinset_card_of_nodup hnd, Finset.card_range]
    omega
  have := Finset.eq_of_subset_of_card_le hsub hcard
  have hpmem : p ∈ l.toFinset := by
    rw [this]
    exact Finset.mem_range.mpr hp
  exact List.mem_toFinset.mp hpmem

/-- Invariant of the index-placement loop of `doDrawModel`: when the render
orders are duplicate-free and in range, after `k` iterations the slot
`renderOrder[i]` holds `i` for every processed drawable `i < k`, and the
list length stays `n`. -/
theorem sortedAux_invariant (renderOrder : List ℕ) (n : ℕ)
    (hlen : renderOrder.length = n) (hnd : renderOrder.Nodup)
    (hb : ∀ o ∈ renderOrder, o < n) :
    ∀ k, k ≤ n → (sortedAux renderOrder n k).length = n ∧
      ∀ i < k, (sortedAux renderOrder n k)[renderOrder.getD i 0]? = some i := by
  intro k
  induction k with
  | zero => intro _; simp [sortedAux]
  | succ k ih =>
    intro hk
    obtain ⟨ihlen, ihget⟩ := ih (by omega)
    have hstep : sortedAux renderOrder n (k + 1) =
        (sortedAux renderOrder n k).set (renderOrder.getD k 0) k := by
      unfold sortedAux
      rw [List.range_succ, List.foldl_append, List.foldl_cons, List.foldl_nil]
    have hkn : k < renderOrder.length := by omega
    have hgetDk : renderOrder.getD k 0 = renderOrder[k] := by
      simp [List.getD_eq_getElem?_getD, List.getElem?_eq_getElem hkn]
    constructor
    · rw [hstep, List.length_set]; exact ihlen
    · intro i hi
      rcases Nat.lt_succ_iff_lt_or_eq.mp hi with hik | hik
      · have hin : i < renderOrder.length := by omega
        have hgetDi : renderOrder.getD i 0 = renderOrder[i] := by
          simp [List.getD_eq_getElem?_getD, List.getElem?_eq_getElem hin]
        have hne : renderOrder.getD k 0 ≠ renderOrder.getD i 0 := by
          rw [hgetDk, hgetDi]
          intro hcontra
          exact absurd ((hnd.getElem_inj_iff).mp hcontra) (by omega)
        rw [hstep, List.getElem?_set_ne hne]
        exact ihget i hik
      · subst hik
        have hbound : renderOrder.getD i 0 < (sortedAux renderOrder n i).length := by
          rw [ihlen, hgetDk]
          exact hb _ (List.getElem_mem hkn)
        rw [hstep, hgetDk] at *
        rw [List.getElem?_set_self hbound]

/-- C2, amended.  When the drawables' render orders form a permutation
of `0 … drawableCount-1` — the representation `doDrawModel` assumes,
since it uses each render order directly as a slot index — the screen
pass emits the drawables in strictly increasing render order, i.e. the
unique (hence trivially stable) sort of drawable indices by render
order: the sequence of render orders along `_sortedDrawableIndexList` is
exactly `0, 1, …, drawableCount-1`, the emitted index list is a
permutation of all drawable indices, and any visibility-filtered
subsequence still has strictly increasing render orders. -/
theorem doDrawModel_order_of_permutation (renderOrder : List ℕ) (n : ℕ)
    (hlen : renderOrder.length = n) (hnd : renderOrder.Nodup)
    (hb : ∀ o ∈ renderOrder, o < n) :
    ((sortedDrawableIndexList renderOrder n).map
        (fun i => renderOrder.getD i 0) = List.range n) ∧
    (sortedDrawableIndexList renderOrder n).Perm (List.range n) ∧
    ∀ visible : ℕ → Bool,
      ((screenPassSequence visible renderOrder n).map
        (fun i => renderOrder.getD i 0)).Pairwise (· < ·) := by
  have haux := sortedAux_invariant renderOrder n hlen hnd hb n (le_refl n)
  have hBdef : sortedDrawableIndexList renderOrder n = sortedAux renderOrder n n := rfl
  obtain ⟨hBlen, hBget⟩ := haux
  rw [← hBdef] at hBlen hBget
  set B := sortedDrawableIndexList renderOrder n with hB
  -- every slot p < n holds the unique drawable index with render order p
  have hslot : ∀ p < n, ∃ i < n, renderOrder.getD i 0 = p ∧ B[p]? = some i := by
    intro p hp
    have hpmem : p ∈ renderOrder := mem_of_nodup_bounded hnd hb hlen p hp
    obtain ⟨idx, hidx, hval⟩ := List.mem_iff_getElem.mp hpmem
    refine ⟨idx, by omega, ?_, ?_⟩
    · simp [List.getD_eq_getElem?_getD, List.getElem?_eq_getElem hidx, hval]
    · have := hBget idx (by omega)
      rwa [show renderOrder.getD idx 0 = p by
        simp [List.getD_eq_getElem?_getD, List.getElem?_eq_getElem hidx, hval]] at this
  have hmap : B.map (fun i => renderOrder.getD i 0) = List.range n := by
    apply List.ext_getElem?
    intro p
    rcases Nat.lt_or_ge p n with hp | hp
    · obtain ⟨i, hin, hgi, hBp⟩ := hslot p hp
      rw [List.getElem?_map, hBp, List.getElem?_range hp]
      simp only [Option.map_some']
      rw [hgi]
    · rw [List.getElem?_map]
      have h1 : B[p]? = none := by
        rw [List.getElem?_eq_none_iff]; omega
      have h2 : (List.range n)[p]? = none := by
        rw [List.getElem?_eq_none_iff]; simpa using hp
      rw [h1, h2]; rfl
  refine ⟨hmap, ?_, ?_⟩
  · -- B is a permutation of all drawable indices
    have hnodup : B.Nodup := by
      have : (B.map (fun i => renderOrder.getD i 0)).Nodup := by
        rw [hmap]; exact List.nodup_range n
      exact List.Nodup.of_map _ this
    have hsubset : B ⊆ List.range n := by
      intro x hx
      obtain ⟨p, hp, hval⟩ := List.mem_iff_getElem.mp hx
      have hplt : p < n := by omega
      obtain ⟨i, hin, _, hBp⟩ := hslot p hplt
      have hxi : some x = some i := by
        rw [← hval, ← hBp]
        exact (List.getElem?_eq_getElem hp).symm
      have : x = i := by injection hxi
      rw [List.mem_range]
      omega
    exact (List.subperm_of_subset hnodup hsubset).perm_of_length_le
      (by rw [hBlen, List.length_range])
  · intro visible
    have hsub : List.Sublist
        ((screenPassSequence visible renderOrder n).map
          (fun i => renderOrder.getD i 0))
        (B.map (fun i => renderOrder.getD i 0)) :=
      List.Sublist.map _ (List.filter_sublist B)
    rw [hmap] at hsub
    exact List.Pairwise.sublist hsub (List.pairwise_lt_range n)

/-- Witness for `doDrawModel_order_of_permutation`: render orders
`[3,1,2,0]` (a permutation of `0..3`). -/
theorem doDrawModel_order_of_permutation_witness :
    ((sortedDrawableIndexList [3, 1, 2, 0] 4).map
        (fun i => [3, 1, 2, 0].getD i 0) = List.range 4) ∧
    (sortedDrawableIndexList [3, 1, 2, 0] 4).Perm (List.range 4) ∧
    ∀ visible : ℕ → Bool,
      ((screenPassSequence visible [3, 1, 2, 0] 4).map
        (fun i => [3, 1, 2, 0].getD i 0)).Pairwise (· < ·) :=
  doDrawModel_order_of_permutation [3, 1, 2, 0] 4 rfl (by decide) (by decide)

/-- C2, counterexample.  With the spec's own render orders `[3,1,2,1]`
(a tie on order `1`), the stable sort of the indices by render order is
`[1,3,2,0]`, but the screen pass emits `[0,3,2,0]`: drawable `3`
overwrote drawable `1` in slot `1`, slot `0` kept its initial `0`, so
drawable `1` is never drawn and drawable `0` is drawn twice — the
emitted sequence is not a stable sort, indeed not a sort (not even a
permutation of the drawable indices). -/
theorem doDrawModel_stable_sort_false :
    screenPassSequence (fun _ => true) [3, 1, 2, 1] 4 = [0, 3, 2, 0] ∧
    screenPassSequence (fun _ => true) [3, 1, 2, 1] 4 ≠ [1, 3, 2, 0] ∧
    ¬ (screenPassSequence (fun _ => true) [3, 1, 2, 1] 4).Perm (List.range 4) := by
  decide

/-- A channel asked to lay out at most nine masks hands out exactly that
many sub-rectangles. -/
theorem channelLayoutRects_length (k : ℕ) (hk : k ≤ 9) :
    (channelLayoutRects k).length = k := by
  unfold channelLayoutRects
  interval_cases k <;> rfl

/-- The four per-channel layout counts of `setupLayoutBounds` always sum
to the requested clip count. -/
theorem layoutCountForChannel_total (n : ℕ) :
    layoutCountForChannel n 0 + layoutCountForChannel n 1 +
      layoutCountForChannel n 2 + layoutCountForChannel n 3 = n := by
  unfold layoutCountForChannel ColorChannelCount
  split_ifs <;> omega

/-- Total number of slots handed out by `setupLayoutBounds`. -/
theorem setupLayoutBounds_length (n : ℕ)
    (h : ∀ c < 4, layoutCountForChannel n c ≤ 9) :
    (setupLayoutBounds n).length = n := by
  unfold setupLayoutBounds
  rw [List.length_append, List.length_append, List.length_append,
    List.length_map, List.length_map, List.length_map, List.length_map,
    channelLayoutRects_length _ (h 0 (by norm_num)),
    channelLayoutRects_length _ (h 1 (by norm_num)),
    channelLayoutRects_length _ (h 2 (by norm_num)),
    channelLayoutRects_length _ (h 3 (by norm_num))]
  have := layoutCountForChannel_total n
  omega

/-- Counting the slots of one channel's block inside the flattened
assignment list. -/
theorem filter_channel_block (c c' : ℕ) (l : List csmRect) :
    ((l.map (Prod.mk c')).filter (fun s => s.1 == c)).length =
      if c' = c then l.length else 0 := by
  induction l with
  | nil => simp
  | cons a t ih =>
    by_cases h : c' = c
    · subst h
      simp only [List.map_cons, List.filter_cons]
      simp [ih]
    · simp only [List.map_cons, List.filter_cons]
      have : ((c', a).1 == c) = false := by
        simp only [beq_eq_false_iff_ne, ne_eq]
        exact h
      rw [this]
      simp [h, ih]

/-- The slot geometry of `channelLayoutRects` matches the claimed grids:
one mask gets the unit square, two get horizontal halves, up to four get
`2×2` quarter tiles, and five to nine get `3×3` tiles. -/
theorem channelLayoutRects_geometry :
    channelLayoutRects 1 = [⟨0, 0, 1, 1⟩] ∧
    channelLayoutRects 2 = [⟨0, 0, 1/2, 1⟩, ⟨1/2, 0, 1/2, 1⟩] ∧
    channelLayoutRects 3 =
      [⟨0, 0, 1/2, 1/2⟩, ⟨1/2, 0, 1/2, 1/2⟩, ⟨0, 1/2, 1/2, 1/2⟩] ∧
    channelLayoutRects 4 =
      [⟨0, 0, 1/2, 1/2⟩, ⟨1/2, 0, 1/2, 1/2⟩,
        ⟨0, 1/2, 1/2, 1/2⟩, ⟨1/2, 1/2, 1/2, 1/2⟩] ∧
    ∀ k, 5 ≤ k → k ≤ 9 → ∀ (i : ℕ) (r : csmRect), (channelLayoutRects k)[i]? = some r →
      r = ⟨((i % 3 : ℕ) : ℚ) / 3, ((i / 3 : ℕ) : ℚ) / 3, 1/3, 1/3⟩ := by
  have hr2 : List.range 2 = [0, 1] := rfl
  have hr3 : List.range 3 = [0, 1, 2] := rfl
  have hr4 : List.range 4 = [0, 1, 2, 3] := rfl
  refine ⟨by simp [channelLayoutRects], by simp [channelLayoutRects, hr2],
    by simp [channelLayoutRects, hr3], by simp [channelLayoutRects, hr4], ?_⟩
  intro k h5 h9 i r h
  have hform : channelLayoutRects k = (List.range k).map (fun i =>
      (⟨((i % 3 : ℕ) : ℚ) / 3, ((i / 3 : ℕ) : ℚ) / 3, 1/3, 1/3⟩ : csmRect)) := by
    unfold channelLayoutRects
    rw [if_neg (by omega), if_neg (by omega), if_neg (by omega),
      if_neg (by omega), if_pos h9]
  rw [hform, List.getElem?_map] at h
  cases hrange : (List.range k)[i]? with
  | none => rw [hrange] at h; simp at h
  | some m =>
    rw [hrange] at h
    obtain ⟨hlt, hval⟩ := List.getElem?_eq_some_iff.mp hrange
    rw [List.getElem_range] at hval
    subst hval
    simp only [Option.map_some'] at h
    exact (Option.some.injEq _ _ ▸ h : _).symm

/-- C5, confirmed.  For `usingClipCount = n` with every per-channel count
at most 9, `setupLayoutBounds` assigns exactly `n` slots; channel `c`
receives `⌊n/4⌋ + (1 if c < n mod 4 else 0)` of them in list order; and
the within-channel geometry is the claimed unit-square / horizontal-halves
/ 2×2 / 3×3 grid. -/
theorem setupLayoutBounds_spec (n : ℕ)
    (h : ∀ c < 4, layoutCountForChannel n c ≤ 9) :
    (setupLayoutBounds n).length = n ∧
    (∀ c < 4, ((setupLayoutBounds n).filter (fun s => s.1 == c)).length =
      layoutCountForChannel n c) ∧
    (channelLayoutRects 1 = [⟨0, 0, 1, 1⟩] ∧
     channelLayoutRects 2 = [⟨0, 0, 1/2, 1⟩, ⟨1/2, 0, 1/2, 1⟩] ∧
     channelLayoutRects 3 =
       [⟨0, 0, 1/2, 1/2⟩, ⟨1/2, 0, 1/2, 1/2⟩, ⟨0, 1/2, 1/2, 1/2⟩] ∧
     channelLayoutRects 4 =
       [⟨0, 0, 1/2, 1/2⟩, ⟨1/2, 0, 1/2, 1/2⟩,
         ⟨0, 1/2, 1/2, 1/2⟩, ⟨1/2, 1/2, 1/2, 1/2⟩] ∧
     ∀ k, 5 ≤ k → k ≤ 9 → ∀ (i : ℕ) (r : csmRect), (channelLayoutRects k)[i]? = some r →
       r = ⟨((i % 3 : ℕ) : ℚ) / 3, ((i / 3 : ℕ) : ℚ) / 3, 1/3, 1/3⟩) := by
  refine ⟨setupLayoutBounds_length n h, ?_, channelLayoutRects_geometry⟩
  intro c hc
  unfold setupLayoutBounds
  rw [List.filter_append, List.filter_append, List.filter_append,
    List.length_append, List.length_append, List.length_append,
    filter_channel_block, filter_channel_block, filter_channel_block,
    filter_channel_block]
  interval_cases c <;>
    simp [channelLayoutRects_length _ (h 0 (by norm_num)),
      channelLayoutRects_length _ (h 1 (by norm_num)),
      channelLayoutRects_length _ (h 2 (by norm_num)),
      channelLayoutRects_length _ (h 3 (by norm_num))]

/-- Witness for `setupLayoutBounds_spec`: the spec's example `n = 5`
(channel distribution `{2,1,1,1}`). -/
theorem setupLayoutBounds_spec_witness :
    (setupLayoutBounds 5).length = 5 ∧
    (∀ c < 4, ((setupLayoutBounds 5).filter (fun s => s.1 == c)).length =
      layoutCountForChannel 5 c) ∧
    (channelLayoutRects 1 = [⟨0, 0, 1, 1⟩] ∧
     channelLayoutRects 2 = [⟨0, 0, 1/2, 1⟩, ⟨1/2, 0, 1/2, 1⟩] ∧
     channelLayoutRects 3 =
       [⟨0, 0, 1/2, 1/2⟩, ⟨1/2, 0, 1/2, 1/2⟩, ⟨0, 1/2, 1/2, 1/2⟩] ∧
     channelLayoutRects 4 =
       [⟨0, 0, 1/2, 1/2⟩, ⟨1/2, 0, 1/2, 1/2⟩,
         ⟨0, 1/2, 1/2, 1/2⟩, ⟨1/2, 1/2, 1/2, 1/2⟩] ∧
     ∀ k, 5 ≤ k → k ≤ 9 → ∀ (i : ℕ) (r : csmRect), (channelLayoutRects k)[i]? = some r →
       r = ⟨((i % 3 : ℕ) : ℚ) / 3, ((i / 3 : ℕ) : ℚ) / 3, 1/3, 1/3⟩) :=
  setupLayoutBounds_spec 5 (by decide)

/-- `l[i]?` holds a value exactly when `i` is in range. -/
theorem getElem?_isSome_iff {α : Type} (l : List α) (i : ℕ) :
    (l[i]?).isSome = true ↔ i < l.length := by
  rw [Option.isSome_iff_exists]
  constructor
  · rintro ⟨v, hv⟩
    exact (List.getElem?_eq_some_iff.mp hv).1
  · intro h
    exact ⟨l[i], List.getElem?_eq_getElem h⟩

/-- C4, amended.  A context with `_isUsing = false` contributes nothing to
the `usingClipCount` passed to `setupLayoutBounds`; but the layout slots
are handed to the FIRST `usingClipCount` contexts of
`_clippingContextListForMask` in plain list order, regardless of their
`_isUsing` flags.  Consequently the slots go exclusively to in-use groups
exactly in the case that the in-use groups all sit before the unused ones
in the list (e.g. when every group is in use). -/
theorem assignedLayoutSlots_list_order (flags : List Bool)
    (h : ∀ c < 4, layoutCountForChannel (usingClipCountOf flags) c ≤ 9) :
    (∀ i < flags.length,
      (((assignedLayoutSlots flags).getD i none).isSome = true ↔
        i < usingClipCountOf flags)) ∧
    (∀ a b : ℕ, flags = List.replicate a true ++ List.replicate b false →
      ∀ i < flags.length,
        (((assignedLayoutSlots flags).getD i none).isSome = true ↔
          flags.getD i false = true)) := by
  have part1 : ∀ i < flags.length,
      (((assignedLayoutSlots flags).getD i none).isSome = true ↔
        i < usingClipCountOf flags) := by
    intro i hi
    have hmap : (assignedLayoutSlots flags).getD i none =
        (setupLayoutBounds (usingClipCountOf flags))[i]? := by
      unfold assignedLayoutSlots
      rw [List.getD_eq_getElem?_getD, List.getElem?_map, List.getElem?_range hi]
      rfl
    rw [hmap, getElem?_isSome_iff, setupLayoutBounds_length _ h]
  refine ⟨part1, ?_⟩
  intro a b hfl i hi
  have hcount : usingClipCountOf flags = a := by
    rw [hfl]
    unfold usingClipCountOf
    rw [List.filter_append, List.filter_replicate_of_pos (by rfl),
      List.filter_replicate_of_neg (by simp), List.append_nil,
      List.length_replicate]
  have hgetD : flags.getD i false = decide (i < a) := by
    rw [hfl, List.getD_eq_getElem?_getD]
    rcases Nat.lt_or_ge i a with hia | hia
    · rw [List.getElem?_append_left (by simpa using hia),
        List.getElem?_replicate_of_lt hia]
      simp [hia]
    · rw [List.getElem?_append_right (by simpa using hia),
        List.getElem?_replicate]
      have hib : i - a < b := by
        rw [hfl] at hi
        simp at hi
        omega
      simp [hib, Nat.not_lt.mpr hia]
  rw [part1 i hi, hcount, hgetD]
  simp

/-- Witness for `assignedLayoutSlots_list_order`: flags `[true, false]`
(the in-use group first).  Slot 0 is handed out because `0 < 1` in-use
groups exist; slot 1 stays unassigned exactly as the flag says. -/
theorem assignedLayoutSlots_list_order_witness :
    ((((assignedLayoutSlots [true, false]).getD 0 none).isSome = true ↔
      0 < usingClipCountOf [true, false]) ∧
     (((assignedLayoutSlots [true, false]).getD 1 none).isSome = true ↔
      ([true, false] : List Bool).getD 1 false = true)) :=
  ⟨(assignedLayoutSlots_list_order [true, false] (by decide)).1 0 (by decide),
   (assignedLayoutSlots_list_order [true, false] (by decide)).2 1 1 rfl 1
     (by decide)⟩

/-- C4, counterexample.  With the mask list `[not-in-use, in-use]`, the
single layout slot (for `usingClipCount = 1`) is written into the FIRST
context of the list — the one that is not in use — so slots do not go
exclusively to in-use groups. -/
theorem slotsOnlyToInUse_false : ¬ slotsOnlyToInUse [false, true] := by
  intro hclaim
  have h0 := hclaim 0 rfl
  exact absurd h0 (by decide)

/-- C6, confirmed (spec-modelled matrix collaborator).  For a context
with non-degenerate bounds, `_matrixForMask` maps each corner of the
5%-margin-expanded model-space rectangle exactly onto the corresponding
corner of the assigned layout sub-rectangle after the `[0,1] → [-1,1]`
remap; over `ℚ` the equalities are exact. -/
theorem matrixForMask_corners (allClipped layout : csmRect)
    (hw : 0 < allClipped.width) (hh : 0 < allClipped.height) :
    maskMapsCorners allClipped layout := by
  have hbw : allClipped.width + 2 * (allClipped.width * MARGIN) ≠ 0 := by
    unfold MARGIN
    intro hcontra
    nlinarith
  have hbh : allClipped.height + 2 * (allClipped.height * MARGIN) ≠ 0 := by
    unfold MARGIN
    intro hcontra
    nlinarith
  unfold maskMapsCorners matrixForMask calcMatrix boundsOnModel
    csmRect.expand Affine2.ident Affine2.translateRelative
    Affine2.scaleRelative Affine2.apply
  simp only [if_true, Prod.mk.injEq]
  refine ⟨⟨?_, ?_⟩, ⟨?_, ?_⟩, ⟨?_, ?_⟩, ⟨?_, ?_⟩⟩ <;>
    · field_simp
      ring

/-- Witness for `matrixForMask_corners`: the unit bounds rectangle laid
out in the left horizontal half of the mask texture. -/
theorem matrixForMask_corners_witness :
    maskMapsCorners ⟨0, 0, 1, 1⟩ ⟨1/2, 0, 1/2, 1⟩ :=
  matrixForMask_corners ⟨0, 0, 1, 1⟩ ⟨1/2, 0, 1/2, 1⟩ (by norm_num)
    (by norm_num)

/-- C7, confirmed.  For every `setupShaderProgram` call, the selected
shader variant and blend tuple agree with the claim's table: mask pass →
setup-mask shader with `(ZERO, ONE_MINUS_SRC_COLOR, ZERO,
ONE_MINUS_SRC_ALPHA)`; otherwise the blend mode's tuple, with the masked
or masked-inverted variant selected when a draw-clipping context is
attached. -/
theorem setupShaderProgram_selection (maskCtx drawCtx : Option ClipCtxGPU)
    (invertedMask : Bool) (colorBlendMode : CubismBlendMode)
    (textureId : Option ℕ) (vertexArray uvArray : List ℚ)
    (indexArray : List ℕ) (baseColor : Color4) (matrix4x4 : Affine2)
    (isPremultipliedAlpha : Bool) :
    ((setupShaderProgram maskCtx drawCtx invertedMask colorBlendMode
        textureId vertexArray uvArray indexArray baseColor matrix4x4
        isPremultipliedAlpha).shaderIndex,
      (setupShaderProgram maskCtx drawCtx invertedMask colorBlendMode
        textureId vertexArray uvArray indexArray baseColor matrix4x4
        isPremultipliedAlpha).blend) =
      specShaderContent maskCtx.isSome drawCtx.isSome invertedMask
        colorBlendMode := by
  cases maskCtx <;> cases drawCtx <;> cases invertedMask <;>
    cases colorBlendMode <;> rfl

/-- C8, confirmed.  A `setupShaderProgram` call with
`isPremultipliedAlpha = false` logs the policy violation and otherwise
behaves exactly as the premultiplied call on the same arguments: every
other effect field — shader selection, blend tuple, buffer uploads,
texture binding, uniform writes — is identical, and the function is
total (no exception is raised). -/
theorem setupShaderProgram_noPMA_continues
    (maskCtx drawCtx : Option ClipCtxGPU) (invertedMask : Bool)
    (colorBlendMode : CubismBlendMode) (textureId : Option ℕ)
    (vertexArray uvArray : List ℚ) (indexArray : List ℕ)
    (baseColor : Color4) (matrix4x4 : Affine2) :
    setupShaderProgram maskCtx drawCtx invertedMask colorBlendMode
        textureId vertexArray uvArray indexArray baseColor matrix4x4
        false =
      { setupShaderProgram maskCtx drawCtx invertedMask colorBlendMode
          textureId vertexArray uvArray indexArray baseColor matrix4x4
          true with
        loggedNoPMA := true } :=
  rfl

/-- C9, amended theorem.  Every compile/link failure mode is non-fatal:
an error is logged and `loadShaderProgram` returns the null (zero)
program handle; but the draw path is NOT guarded against that handle —
`drawMesh` still issues `drawElements` through it. -/
theorem loadShaderProgram_failure_unguarded (vertOk fragOk linkOk : Bool)
    (createdHandle : ℕ)
    (hfail : vertOk = false ∨ fragOk = false ∨ linkOk = false) :
    (loadShaderProgram vertOk fragOk linkOk createdHandle).2 = 0 ∧
    (loadShaderProgram vertOk fragOk linkOk createdHandle).1 ≠ [] ∧
    ∀ (blend : BlendTuple) (indexCount : ℕ),
      GLCmd.drawElements indexCount ∈
        drawMeshCommands (loadShaderProgram vertOk fragOk linkOk
          createdHandle).2 blend indexCount := by
  cases vertOk <;> cases fragOk <;> cases linkOk <;>
    simp_all [loadShaderProgram, drawMeshCommands]

/-- Witness for `loadShaderProgram_failure_unguarded`: a vertex-shader
compile failure. -/
theorem loadShaderProgram_failure_unguarded_witness :
    (loadShaderProgram false true true 7).2 = 0 ∧
    (loadShaderProgram false true true 7).1 ≠ [] ∧
    ∀ (blend : BlendTuple) (indexCount : ℕ),
      GLCmd.drawElements indexCount ∈
        drawMeshCommands (loadShaderProgram false true true 7).2 blend
          indexCount :=
  loadShaderProgram_failure_unguarded false true true 7 (Or.inl rfl)

/-- C9, counterexample.  The claim that a draw through a failed (null
handle) variant "is guarded against the null handle and skipped rather
than issued" is false: `drawMesh` issues `drawElements` with program
handle `0` bound all the same. -/
theorem failedVariantDrawSkipped_false : ¬ failedVariantDrawSkipped := by
  intro hclaim
  exact hclaim ⟨.one, .one, .zero, .one⟩ 6 (by simp [drawMeshCommands])

/-- In `calcClippedDrawTotalBounds`, a drawable with no valid vertex
leaves the whole loop state untouched (`continue` fires before any
write). -/
theorem calcClippedDrawTotalBoundsStep_empty (vertices : ℕ → List (ℚ × ℚ))
    (acc : Option (ℚ × ℚ × ℚ × ℚ) × ClippingContextBounds) (i : ℕ)
    (h : vertices i = []) :
    calcClippedDrawTotalBoundsStep vertices acc i = acc := by
  unfold calcClippedDrawTotalBoundsStep
  rw [h]
  rfl

/-- C3, divergence theorem (code bug).  When no clipped drawable has any
valid vertex — including an empty clipped-drawable list — the claim says
`calcClippedDrawTotalBounds` zeroes `_allClippedDrawRect` and sets
`_isUsing` to `false`; the code instead leaves both fields exactly as
they were, because the zero/not-in-use branch sits inside the per-drawable
loop after the `continue` that skips vertex-less drawables, so it is never
reached. -/
theorem calcClippedDrawTotalBounds_no_valid_vertex
    (vertices : ℕ → List (ℚ × ℚ)) (idxs : List ℕ)
    (st : ClippingContextBounds)
    (h : ∀ i ∈ idxs, vertices i = []) :
    calcClippedDrawTotalBounds vertices idxs st = st := by
  unfold calcClippedDrawTotalBounds
  have key : ∀ (l : List ℕ) (acc : Option (ℚ × ℚ × ℚ × ℚ) × ClippingContextBounds),
      (∀ i ∈ l, vertices i = []) →
      l.foldl (calcClippedDrawTotalBoundsStep vertices) acc = acc := by
    intro l
    induction l with
    | nil => intro acc _; rfl
    | cons a t ih =>
      intro acc hl
      rw [List.foldl_cons,
        calcClippedDrawTotalBoundsStep_empty vertices acc a
          (hl a (List.mem_cons_self a t))]
      exact ih acc (fun i hi => hl i (List.mem_cons_of_mem a hi))
  rw [key idxs (none, st) h]

/-- Witness for `calcClippedDrawTotalBounds_no_valid_vertex`: a context
clipping drawables `0` and `1`, both with empty vertex sets, whose fields
previously held a non-zero rect and `_isUsing = true`, keeps those stale
values (the claim demanded the zero rect and `_isUsing = false`). -/
theorem calcClippedDrawTotalBounds_no_valid_vertex_witness :
    calcClippedDrawTotalBounds (fun _ => []) [0, 1] ⟨⟨5, 6, 7, 8⟩, true⟩ =
      ⟨⟨5, 6, 7, 8⟩, true⟩ :=
  calcClippedDrawTotalBounds_no_valid_vertex (fun _ => []) [0, 1]
    ⟨⟨5, 6, 7, 8⟩, true⟩ (fun _ _ => rfl)

/-- C1, counterexample.  The claim "returns the existing ClippingContext iff
the two lists are equal as sets, independent … of duplicate counts" is false:
with `[1,1]` registered and `[1,2]` queried the lengths agree and every
stored ID occurs in the query, so `findSameClip` returns the context, yet
the sets `{1}` and `{1,2}` differ. -/
theorem findSameClip_set_equality_false :
    ¬ ((findSameClip [mkClippingContext [1, 1]] [1, 2]).isSome = true ↔
      ([1, 1] : List ℤ).toFinset = ([1, 2] : List ℤ).toFinset) := by
  decide

/-- A successful `findSameClipIdx` scan returns a position inside the
mask list. -/
theorem findSameClipIdx_lt_length (masks : List ℤ) :
    ∀ (l : List ClippingContext) (j : ℕ),
      findSameClipIdx masks l = some j → j < l.length := by
  intro l
  induction l with
  | nil => intro j h; simp [findSameClipIdx] at h
  | cons cc rest ih =>
    intro j h
    unfold findSameClipIdx at h
    split_ifs at h with hm
    · have : j = 0 := by injection h with h; omega
      simp [this]
    · cases hrec : findSameClipIdx masks rest with
      | none => rw [hrec] at h; simp at h
      | some j' =>
        rw [hrec] at h
        simp only [Option.map_some'] at h
        have hj : j = j' + 1 := by injection h with h; omega
        have := ih j' hrec
        simp [hj]
        omega

/-- C10, confirmed.  After `initialize` on a fresh manager:
`_clippingContextListForDraw` has exactly `drawableCount` entries; entry
`i` is `null` iff `drawableMaskCounts[i] <= 0`; and every non-null entry
refers to a context of `_clippingContextListForMask` whose
`_clippedDrawableIndexList` contains `i` (entries are modelled as
positions into the mask list, since the source stores shared mutable
references). -/
theorem initClippingManager_spec (masks : ℕ → List ℤ) (counts : ℕ → ℤ)
    (drawableCount : ℕ) :
    ((initClippingManager masks counts drawableCount).2.length =
      drawableCount) ∧
    (∀ i < drawableCount,
      ((initClippingManager masks counts drawableCount).2[i]? = some none ↔
        counts i ≤ 0)) ∧
    (∀ (i j : ℕ),
      (initClippingManager masks counts drawableCount).2[i]? =
        some (some j) →
      ∃ cc, ((initClippingManager masks counts drawableCount).1)[j]? =
        some cc ∧ i ∈ cc.clippedDrawableIndexList) := by
  induction drawableCount with
  | zero =>
    refine ⟨rfl, ?_, ?_⟩
    · intro i hi; omega
    · intro i j h; simp [initClippingManager] at h
  | succ n ih =>
    obtain ⟨ihlen, ihnone, ihmem⟩ := ih
    have hstep : initClippingManager masks counts (n + 1) =
        initializeStep masks counts (initClippingManager masks counts n) n := by
      unfold initClippingManager
      rw [List.range_succ, List.foldl_append, List.foldl_cons, List.foldl_nil]
    set ml := (initClippingManager masks counts n).1 with hml
    set dl := (initClippingManager masks counts n).2 with hdl
    by_cases hc : counts n ≤ 0
    · -- the drawable uses no mask: a null entry is pushed
      have hnew : initClippingManager masks counts (n + 1) =
          (ml, dl ++ [none]) := by
        rw [hstep]
        unfold initializeStep
        rw [if_pos hc]
      rw [hnew]
      refine ⟨by simp [ihlen], ?_, ?_⟩
      · intro i hi
        rcases Nat.lt_or_ge i n with hin | hin
        · rw [List.getElem?_append_left (by omega)]
          exact ihnone i hin
        · have hieq : i = n := by omega
          subst hieq
          rw [List.getElem?_append_right (by omega), ihlen]
          simp [hc]
      · intro i j h
        rcases Nat.lt_or_ge i dl.length with hin | hin
        · rw [List.getElem?_append_left hin] at h
          exact ihmem i j h
        · rw [List.getElem?_append_right hin] at h
          rcases Nat.lt_or_ge (i - dl.length) 1 with h1 | h1
          · interval_cases h2 : (i - dl.length)
            · simp at h
          · rw [List.getElem?_eq_none_iff.mpr (by simpa using h1)] at h
            exact absurd h (by simp)
    · -- the drawable uses a mask
      have hmasks : counts n > 0 := by omega
      by_cases hfind : ∃ j, findSameClipIdx
          ((masks n).take (counts n).toNat) ml = some j
      · -- an existing context matches: it is mutated in place
        obtain ⟨j0, hj0⟩ := hfind
        have hj0lt : j0 < ml.length := findSameClipIdx_lt_length _ ml j0 hj0
        have hnew : initClippingManager masks counts (n + 1) =
            (ml.set j0 ((ml.getD j0 (mkClippingContext
                ((masks n).take (counts n).toNat))).addClippedDrawable n),
              dl ++ [some j0]) := by
          rw [hstep]
          unfold initializeStep
          rw [if_neg hc, ← hml, ← hdl]
          simp only [hj0]
        rw [hnew]
        refine ⟨by simp [ihlen], ?_, ?_⟩
        · intro i hi
          rcases Nat.lt_or_ge i n with hin | hin
          · rw [List.getElem?_append_left (by omega)]
            exact ihnone i hin
          · have hieq : i = n := by omega
            subst hieq
            rw [List.getElem?_append_right (by omega), ihlen]
            simp [hc]
        · intro i j h
          rcases Nat.lt_or_ge i dl.length with hin | hin
          · rw [List.getElem?_append_left hin] at h
            obtain ⟨cc, hcc, hmem⟩ := ihmem i j h
            by_cases hjj : j = j0
            · subst hjj
              refine ⟨(ml.getD j (mkClippingContext
                  ((masks n).take (counts n).toNat))).addClippedDrawable n,
                ?_, ?_⟩
              · rw [List.getElem?_set_self (by simpa using hj0lt)]
              · have hgetD : ml.getD j (mkClippingContext
                    ((masks n).take (counts n).toNat)) = cc := by
                  rw [List.getD_eq_getElem?_getD, hcc]
                  rfl
                rw [hgetD]
                unfold ClippingContext.addClippedDrawable
                simp only [List.mem_append]
                exact Or.inl hmem
            · refine ⟨cc, ?_, hmem⟩
              rw [List.getElem?_set_ne (fun hcontra => hjj hcontra.symm)]
              exact hcc
          · have hieq : i = dl.length := by
              rcases Nat.lt_or_ge (i - dl.length) 1 with h1 | h1
              · omega
              · rw [List.getElem?_append_right hin,
                  List.getElem?_eq_none_iff.mpr (by simpa using h1)] at h
                exact absurd h (by simp)
            subst hieq
            rw [List.getElem?_append_right (by omega)] at h
            simp only [Nat.sub_self, List.getElem?_cons_zero] at h
            have hjeq : j = j0 := by
              injection h with h1
              injection h1 with h2
              omega
            subst hjeq
            refine ⟨(ml.getD j (mkClippingContext
                ((masks n).take (counts n).toNat))).addClippedDrawable n,
              ?_, ?_⟩
            · rw [List.getElem?_set_self (by simpa using hj0lt)]
            · rw [ihlen]
              unfold ClippingContext.addClippedDrawable
              simp only [List.mem_append]
              exact Or.inr (by simp)
      · -- no existing context matches: a fresh one is pushed
        have hnone : findSameClipIdx ((masks n).take (counts n).toNat) ml =
            none := by
          cases hfs : findSameClipIdx ((masks n).take (counts n).toNat) ml with
          | none => rfl
          | some j => exact absurd ⟨j, hfs⟩ hfind
        have hnew : initClippingManager masks counts (n + 1) =
            (ml ++ [(mkClippingContext
                ((masks n).take (counts n).toNat)).addClippedDrawable n],
              dl ++ [some ml.length]) := by
          rw [hstep]
          unfold initializeStep
          rw [if_neg hc, ← hml, ← hdl]
          simp only [hnone]
        rw [hnew]
        refine ⟨by simp [ihlen], ?_, ?_⟩
        · intro i hi
          rcases Nat.lt_or_ge i n with hin | hin
          · rw [List.getElem?_append_left (by omega)]
            exact ihnone i hin
          · have hieq : i = n := by omega
            subst hieq
            rw [List.getElem?_append_right (by omega), ihlen]
            simp [hc]
        · intro i j h
          rcases Nat.lt_or_ge i dl.length with hin | hin
          · rw [List.getElem?_append_left hin] at h
            obtain ⟨cc, hcc, hmem⟩ := ihmem i j h
            refine ⟨cc, ?_, hmem⟩
            have hjlt : j < ml.length := by
              by_contra hge
              rw [List.getElem?_eq_none_iff.mpr (by omega)] at hcc
              exact absurd hcc (by simp)
            rw [List.getElem?_append_left hjlt]
            exact hcc
          · have hieq : i = dl.length := by
              rcases Nat.lt_or_ge (i - dl.length) 1 with h1 | h1
              · omega
              · rw [List.getElem?_append_right hin,
                  List.getElem?_eq_none_iff.mpr (by simpa using h1)] at h
                exact absurd h (by simp)
            subst hieq
            rw [List.getElem?_append_right (by omega)] at h
            simp only [Nat.sub_self, List.getElem?_cons_zero] at h
            have hjeq : j = ml.length := by
              injection h with h1
              injection h1 with h2
              omega
            subst hjeq
            refine ⟨(mkClippingContext
                ((masks n).take (counts n).toNat)).addClippedDrawable n,
              ?_, ?_⟩
            · rw [List.getElem?_append_right (le_refl _)]
              simp
            · rw [ihlen]
              unfold ClippingContext.addClippedDrawable mkClippingContext
              simp

/-- Witness for `initClippingManager_spec`: three drawables — drawable 0
unmasked, drawables 1 and 2 sharing mask `[0]` — give a draw list
`[null, ctx, ctx]` whose shared context clips both 1 and 2. -/
theorem initClippingManager_spec_witness :
    (((initClippingManager
        (fun i => if i = 0 then [] else [0]) (fun i => if i = 0 then 0 else 1)
        3).2[1]? = some none ↔ (if (1 : ℕ) = 0 then (0 : ℤ) else 1) ≤ 0) ∧
     ∃ cc, ((initClippingManager
        (fun i => if i = 0 then [] else [0]) (fun i => if i = 0 then 0 else 1)
        3).1)[0]? = some cc ∧ 2 ∈ cc.clippedDrawableIndexList) :=
  ⟨(initClippingManager_spec (fun i => if i = 0 then [] else [0])
      (fun i => if i = 0 then 0 else 1) 3).2.1 1 (by omega),
   (initClippingManager_spec (fun i => if i = 0 then [] else [0])
      (fun i => if i = 0 then 0 else 1) 3).2.2 2 0 (by decide)⟩

end CubismWebGL
